import Mathlib

/-!
Shallow embedding of `src/sum_calculator.py` (Simple Sum Calculator).

Python values that may be passed to the summation functions are modelled by
the inductive type `PyVal`.  Numeric values (Python `int` and `float`) are
modelled exactly: integers as `Int` and floats as rationals (`ℚ`), so
arithmetic in the model is exact.  Python `bool` is a subclass of `int`, so
`isinstance(b, (int, float))` is true for booleans; the model records this in
`isNumeric`.

A raised `TypeError` is modelled by the structure `TypeErr`, carrying the two
pieces of information interpolated into the message
`f"All arguments must be numbers. Got {type(num).__name__}: {num}"`:
the offending value and its Python type name.
-/

/-- Model of a Python value that can appear in the argument sequence of
`sum_numbers`. -/
inductive PyVal where
  | int (n : Int)
  | float (q : ℚ)
  | bool (b : Bool)
  | str (s : String)
  | none
  | list (xs : List PyVal)
deriving Repr

/-- Model of `isinstance(num, (int, float))`.  Python booleans are instances
of `int`, so they pass the check. -/
def isNumeric : PyVal → Bool
  | .int _ => true
  | .float _ => true
  | .bool _ => true
  | .str _ => false
  | .none => false
  | .list _ => false

/-- Numeric value of a `PyVal` used by `total += num`; `True` counts as 1 and
`False` as 0, as in Python.  Non-numeric values never reach the accumulation
(the check raises first); on them the function is defined as 0. -/
def toNum : PyVal → ℚ
  | .int n => (n : ℚ)
  | .float q => q
  | .bool b => if b then 1 else 0
  | .str _ => 0
  | .none => 0
  | .list _ => 0

/-- Model of Python `type(v).__name__` for the modelled values. -/
def pyTypeName : PyVal → String
  | .int _ => "int"
  | .float _ => "float"
  | .bool _ => "bool"
  | .str _ => "str"
  | .none => "NoneType"
  | .list _ => "list"

/-- Model of the `TypeError` raised by `sum_numbers`: the message identifies
the offending value and its type name. -/
structure TypeErr where
  value : PyVal
  typeName : String
deriving Repr

/-- The loop body of `sum_numbers`: iterate over the remaining arguments with
the running total, checking `isinstance(num, (int, float))` before each
`total += num`, and raising on the first non-numeric argument. -/
def sumLoop : List PyVal → ℚ → Except TypeErr ℚ
  | [], total => .ok total
  | num :: rest, total =>
    if isNumeric num then sumLoop rest (total + toNum num)
    else .error ⟨num, pyTypeName num⟩

/-- Model of `sum_numbers(*args)`: running total starts at 0. -/
def sum_numbers (args : List PyVal) : Except TypeErr ℚ :=
  sumLoop args 0

/-- Model of `sum_from_list(numbers)`, which is `sum_numbers(*numbers)`. -/
def sum_from_list (numbers : List PyVal) : Except TypeErr ℚ :=
  sum_numbers numbers

/-!
Model of `interactive_calculator`.

User interaction is modelled as a list of input events: either a line typed
at the prompt, or a `KeyboardInterrupt` arriving while waiting at the prompt.
The observable behaviour is the list of messages printed.  Message texts are
abstracted into the inductive `OutMsg`, one constructor per `print`/prompt in
the source, carrying the interpolated data.  If the event list runs out while
the loop still wants input, the trace simply ends (the remaining behaviour is
not modelled).

Python's builtin `float` on a stripped string is modelled by `pyFloat`, which
parses the finite decimal literals (optional sign, digits with an optional
decimal point, optional exponent, single underscores between digits) into an
exact rational.  The special values `inf`/`nan` (recognised separately by
`isInfNan`) and non-ASCII Unicode digits are accepted by the builtin but not
representable here; theorems conditioned on parse failure therefore restrict
to ASCII entries and exclude the special-value literals, so that their
hypothesis implies a real `ValueError` in the program.
-/

/-- An input event: a typed line, or an interrupt during the prompt. -/
inductive InEvent where
  | line (s : String)
  | interrupt
deriving Repr

/-- The messages `interactive_calculator` can print, one constructor per
output site in the source, carrying the interpolated data. -/
inductive OutMsg where
  | headerTitle
  | headerInstr
  | prompt (k : Nat)
  | invalidNumber
  | cancelled
  | noNumbers
  | sumResult (numbers : List ℚ) (result : ℚ)
  | sumError (e : TypeErr)
deriving Repr

/-- Leading Python digitpart `digit (["_"] digit)*` of a character list: the
digits with the single separating underscores removed (PEP 515), and the
unconsumed rest.  A trailing underscore or a doubled underscore is left in
the rest, making the overall parse fail as in Python. -/
def takeDigits : List Char → List Char × List Char
  | [] => ([], [])
  | c :: '_' :: c2 :: cs2 =>
    if c.isDigit then
      if c2.isDigit then
        let (ds, rest) := takeDigits (c2 :: cs2)
        (c :: ds, rest)
      else ([c], '_' :: c2 :: cs2)
    else ([], c :: '_' :: c2 :: cs2)
  | c :: cs =>
    if c.isDigit then
      let (ds, rest) := takeDigits cs
      (c :: ds, rest)
    else ([], c :: cs)

/-- Natural number denoted by a list of decimal digits (0 for the empty
list). -/
def digitsToNat (ds : List Char) : Nat :=
  ds.foldl (fun acc c => 10 * acc + (c.toNat - 48)) 0

/-- Optional leading sign, as a factor, with the rest. -/
def takeSign : List Char → Int × List Char
  | '-' :: cs => (-1, cs)
  | '+' :: cs => (1, cs)
  | cs => (1, cs)

/-- Model of Python `float(s)` on an already-stripped string, restricted to
finite decimal literals: optional sign, digits with an optional decimal
point (at least one digit overall), an optional exponent, and single
underscores between digits.  Returns the exact rational value, or `none`
when the string is not parseable.  The special values matched by `isInfNan`
and non-ASCII digits are outside this model (see `allAscii`). -/
def pyFloat (s : String) : Option ℚ :=
  let (sgn, cs) := takeSign s.toList
  let (ip, cs) := takeDigits cs
  let (fp, cs) :=
    match cs with
    | '.' :: rest => takeDigits rest
    | _ => ([], cs)
  if ip.isEmpty && fp.isEmpty then none
  else
    let mant : ℚ := (digitsToNat ip : ℚ) + (digitsToNat fp : ℚ) / 10 ^ fp.length
    match cs with
    | [] => some ((sgn : ℚ) * mant)
    | c :: rest =>
      if c = 'e' || c = 'E' then
        let (esgn, rest) := takeSign rest
        let (ed, rest) := takeDigits rest
        if ed.isEmpty || !rest.isEmpty then none
        else some ((sgn : ℚ) * mant * (10 : ℚ) ^ (esgn * (digitsToNat ed : Int)))
      else none

/-- The characters Python `str.strip()` removes: exactly those for which
`str.isspace()` holds (ASCII whitespace, the information separators
U+001C-U+001F, and the Unicode whitespace code points). -/
def pyWs (c : Char) : Bool :=
  let n := c.toNat
  (0x09 ≤ n && n ≤ 0x0D) || n == 0x20 || (0x1C ≤ n && n ≤ 0x1F) ||
  n == 0x85 || n == 0xA0 || n == 0x1680 || (0x2000 ≤ n && n ≤ 0x200A) ||
  n == 0x2028 || n == 0x2029 || n == 0x202F || n == 0x205F || n == 0x3000

/-- Drop leading whitespace characters. -/
def dropWs : List Char → List Char
  | [] => []
  | c :: cs => if pyWs c then dropWs cs else c :: cs

/-- Model of Python `str.strip()` with no argument: remove leading and
trailing whitespace. -/
def pyStrip (s : String) : String :=
  ⟨(dropWs (dropWs s.toList).reverse).reverse⟩

/-- Lower-case an ASCII letter; other characters unchanged. -/
def lowerAscii (c : Char) : Char :=
  if 'A' ≤ c && c ≤ 'Z' then Char.ofNat (c.toNat + 32) else c

/-- Recogniser for the special-value literals of Python `float(s)`:
an optional sign followed by `inf`, `infinity` or `nan` in any casing.
These parse to non-finite doubles, which the rational-valued `pyFloat`
cannot represent, so theorems about parse failure exclude them. -/
def isInfNan (s : String) : Bool :=
  let l := (takeSign s.toList).2.map lowerAscii
  l == ['i', 'n', 'f'] || l == ['i', 'n', 'f', 'i', 'n', 'i', 't', 'y'] ||
    l == ['n', 'a', 'n']

/-- True when every character of the string is ASCII.  Python's `float()`
additionally accepts non-ASCII Unicode decimal digits, which the model does
not enumerate; theorems about parse failure are stated for ASCII entries,
where `pyFloat` fails exactly when `float()` raises `ValueError` (the
special values recognised by `isInfNan` set aside). -/
def allAscii (s : String) : Bool :=
  s.toList.all fun c => c.toNat < 128

/-- The code run after the entry loop breaks: print the "no numbers" message
when nothing was collected, otherwise call `sum_from_list` on the collected
floats and print the sum (or the error message if summation raised). -/
def afterLoop (numbers : List ℚ) : List OutMsg :=
  if numbers = [] then [.noNumbers]
  else
    match sum_from_list (numbers.map PyVal.float) with
    | .ok result => [.sumResult numbers result]
    | .error e => [.sumError e]

/-- The `while True` entry loop of `interactive_calculator`, over the pending
input events, carrying the list of numbers collected so far.  Each iteration
prints the prompt (numbered from the count collected), then: an interrupt
prints the cancellation message and returns; a blank line (after `strip`)
breaks to `afterLoop`; a parseable line appends the parsed float; any other
line prints the invalid-number message and re-prompts. -/
def calcLoop : List InEvent → List ℚ → List OutMsg
  | [], _ => []
  | e :: rest, numbers =>
    OutMsg.prompt (numbers.length + 1) ::
      match e with
      | .interrupt => [.cancelled]
      | .line s =>
        let stripped := pyStrip s
        if stripped = "" then afterLoop numbers
        else
          match pyFloat stripped with
          | some q => calcLoop rest (numbers ++ [q])
          | Option.none => .invalidNumber :: calcLoop rest numbers

/-- Model of `interactive_calculator()`: print the two header lines, then run
the entry loop with an empty collection. -/
def interactive_calculator (events : List InEvent) : List OutMsg :=
  .headerTitle :: .headerInstr :: calcLoop events []

/-- Recogniser for the error-branch message `"Error calculating sum: ..."`. -/
def isSumError : OutMsg → Bool
  | .sumError _ => true
  | _ => false

/-- Recogniser for the success message `"Sum of {numbers} = {result}"`. -/
def isSumResult : OutMsg → Bool
  | .sumResult _ _ => true
  | _ => false

/-!
Double-precision model for the order-dependence of float summation.

The summation claims are settled over the exact rational embedding above,
but Python `float` values are IEEE-754 binary64 numbers and their addition
rounds.  To examine how `sum_numbers` behaves on actual doubles, a double is
represented exactly as an integer mantissa times a power of two, and
addition is the exact integer sum rounded back to 53 significant bits with
round-to-nearest, ties-to-even — the binary64 rule for the normal range
(overflow and subnormals, far from the values used here, are not modelled).
-/

/-- A binary64 value `m * 2^e`, as an exact scaled integer. -/
structure F64 where
  m : Int
  e : Int
deriving Repr

/-- Number of right shifts needed to bring `M` below `2^53`; `fuel` bounds
the recursion and is immaterial for `M < 2^(fuel+53)`. -/
def shiftAmount : Nat → Nat → Nat
  | 0, _ => 0
  | fuel + 1, M => if M < 2 ^ 53 then 0 else shiftAmount fuel (M / 2) + 1

/-- Round `M / 2^k` to the nearest integer, ties to even. -/
def roundShift (M k : Nat) : Nat :=
  let q := M / 2 ^ k
  let r := M % 2 ^ k
  if 2 * r < 2 ^ k then q
  else if 2 * r > 2 ^ k then q + 1
  else if q % 2 = 0 then q else q + 1

/-- IEEE-754 binary64 addition in the normal range: add exactly at the
smaller exponent, then round the result to 53 significant bits with
ties-to-even. -/
def addF64 (a b : F64) : F64 :=
  let emin := min a.e b.e
  let S : Int := a.m * 2 ^ (a.e - emin).toNat + b.m * 2 ^ (b.e - emin).toNat
  let A := S.natAbs
  let k := shiftAmount 200 A
  let M : Int := (roundShift A k : Int)
  ⟨if S < 0 then -M else M, emin + k⟩

/-- Whether two scaled-integer representations denote the same real value. -/
def F64.sameValue (a b : F64) : Bool :=
  let emin := min a.e b.e
  a.m * 2 ^ (a.e - emin).toNat == b.m * 2 ^ (b.e - emin).toNat

/-- The accumulation loop of `sum_numbers` in the all-float case, under
binary64 arithmetic: what the Python program computes when every argument is
a float (`total = 0`, and `0 + x` is exact). -/
def sumLoopF64 : List F64 → F64 → F64
  | [], total => total
  | num :: rest, total => sumLoopF64 rest (addF64 total num)

/-- `sum_numbers(*args)` on all-float arguments under binary64 arithmetic. -/
def sum_numbers_f64 (args : List F64) : F64 :=
  sumLoopF64 args ⟨0, 0⟩

/-- The values whose Python arithmetic is exact: integers and booleans
(arbitrary-precision `int`).  Summation over these is order-independent in
the program, unlike over floats. -/
def isExactNum : PyVal → Bool
  | .int _ => true
  | .bool _ => true
  | _ => false

/-!
General lemmas about the summation loop, shared by the claim theorems.
-/

/-- When every remaining argument passes the numeric check, the loop returns
the running total plus the sum of the remaining arguments. -/
theorem sumLoop_ok (args : List PyVal) (total : ℚ) (h : args.all isNumeric = true) :
    sumLoop args total = .ok (total + (args.map toNum).sum) := by
  induction args generalizing total with
  | nil => simp [sumLoop]
  | cons num rest ih =>
    simp only [List.all_cons, Bool.and_eq_true] at h
    simp [sumLoop, h.1, ih _ h.2, add_assoc]

/-- The loop raises on the first argument failing the numeric check,
carrying that value and its type name, whatever the running total. -/
theorem sumLoop_err (args : List PyVal) (total : ℚ) (v : PyVal)
    (h : args.find? (fun u => !isNumeric u) = some v) :
    sumLoop args total = .error ⟨v, pyTypeName v⟩ := by
  induction args generalizing total with
  | nil => simp [List.find?] at h
  | cons num rest ih =>
    by_cases hn : isNumeric num = true
    · rw [List.find?_cons_of_neg _ (by simp [hn])] at h
      simpa [sumLoop, hn] using ih _ h
    · rw [List.find?_cons_of_pos _ (by simp [hn])] at h
      cases h
      simp [sumLoop, hn]

/-- Mapping a list of rationals into float values and back is the identity. -/
theorem map_toNum_float (l : List ℚ) : (l.map PyVal.float).map toNum = l := by
  induction l with
  | nil => rfl
  | cons q t iht => simp [toNum, iht]

/-- Summing a list of floats always succeeds, with the exact rational sum. -/
theorem sum_from_list_floats (l : List ℚ) :
    sum_from_list (l.map PyVal.float) = .ok l.sum := by
  have hall : (l.map PyVal.float).all isNumeric = true := by
    simp [List.all_eq_true, isNumeric]
  have h := sumLoop_ok (l.map PyVal.float) 0 hall
  rw [sum_from_list, sum_numbers, h, map_toNum_float, zero_add]

/-- Unfolding lemma for one loop iteration on a typed line. -/
theorem calcLoop_cons_line (s : String) (rest : List InEvent) (numbers : List ℚ) :
    calcLoop (InEvent.line s :: rest) numbers =
      OutMsg.prompt (numbers.length + 1) ::
        (if pyStrip s = "" then afterLoop numbers
         else
           match pyFloat (pyStrip s) with
           | some q => calcLoop rest (numbers ++ [q])
           | Option.none => OutMsg.invalidNumber :: calcLoop rest numbers) := rfl

/-- Unfolding lemma for one loop iteration hit by an interrupt. -/
theorem calcLoop_cons_interrupt (rest : List InEvent) (numbers : List ℚ) :
    calcLoop (InEvent.interrupt :: rest) numbers =
      [OutMsg.prompt (numbers.length + 1), OutMsg.cancelled] := rfl

/-- The error branch of the interactive printer is unreachable: after the
entry loop, either the no-numbers message or a sum result is printed. -/
theorem afterLoop_no_sumError (numbers : List ℚ) :
    ∀ m ∈ afterLoop numbers, isSumError m = false := by
  unfold afterLoop
  by_cases h : numbers = [] <;>
    simp [h, sum_from_list_floats, isSumError]

/-- No trace of the entry loop, from any collected state, contains the
error-branch message. -/
theorem calcLoop_no_sumError (events : List InEvent) (numbers : List ℚ) :
    ∀ m ∈ calcLoop events numbers, isSumError m = false := by
  induction events generalizing numbers with
  | nil => simp [calcLoop]
  | cons e rest ih =>
    cases e with
    | interrupt => simp [calcLoop_cons_interrupt, isSumError]
    | line s =>
      rw [calcLoop_cons_line]
      intro m hm
      rcases List.mem_cons.mp hm with h1 | h2
      · subst h1; rfl
      · by_cases hb : pyStrip s = ""
        · rw [if_pos hb] at h2
          exact afterLoop_no_sumError numbers m h2
        · rw [if_neg hb] at h2
          cases hq : pyFloat (pyStrip s) with
          | some q =>
            rw [hq] at h2
            exact ih _ m h2
          | none =>
            rw [hq] at h2
            rcases List.mem_cons.mp h2 with h3 | h4
            · subst h3; rfl
            · exact ih _ m h4

/-!
Claim theorems.
-/

/-- Claim C1: for every sequence of numeric values (integers or floats),
`sum_numbers` succeeds and returns the arithmetic sum of all its elements,
accumulated from a starting total of 0; in particular the empty sequence
sums to 0, and `sum_from_list` on the same values behaves identically. -/
theorem sum_numbers_numeric_ok (args : List PyVal) (h : args.all isNumeric = true) :
    sum_numbers args = Except.ok ((args.map toNum).sum) ∧
    sum_from_list args = Except.ok ((args.map toNum).sum) ∧
    sum_numbers [] = Except.ok 0 := by
  have hs := sumLoop_ok args 0 h
  rw [zero_add] at hs
  exact ⟨hs, hs, rfl⟩

/-- Witness for C1 at a concrete all-numeric input. -/
theorem sum_numbers_numeric_ok_witness :
    sum_numbers [PyVal.int 1, PyVal.int 2] = Except.ok 3 := by
  have h := (sum_numbers_numeric_ok [PyVal.int 1, PyVal.int 2] rfl).1
  rw [h]
  norm_num [toNum]

/-- Claim C2: whenever the argument sequence contains a non-numeric element,
`sum_numbers` and `sum_from_list` raise a type-mismatch error identifying the
first offending value and its type name, and no partial total is returned;
conversely, when every element is numeric no error is raised. -/
theorem sum_numbers_type_error (args : List PyVal) (v : PyVal)
    (h : args.find? (fun u => !isNumeric u) = some v) :
    (sum_numbers args = Except.error ⟨v, pyTypeName v⟩ ∧
     sum_from_list args = Except.error ⟨v, pyTypeName v⟩) ∧
    ∀ args2 : List PyVal, args2.all isNumeric = true →
      ∃ q : ℚ, sum_numbers args2 = Except.ok q := by
  have he := sumLoop_err args 0 v h
  exact ⟨⟨he, he⟩, fun args2 h2 => ⟨_, (sum_numbers_numeric_ok args2 h2).1⟩⟩

/-- Witness for C2 at a concrete input with a non-numeric element. -/
theorem sum_numbers_type_error_witness :
    sum_numbers [PyVal.int 1, PyVal.int 2, PyVal.str "3"] =
      Except.error ⟨PyVal.str "3", "str"⟩ :=
  (sum_numbers_type_error [PyVal.int 1, PyVal.int 2, PyVal.str "3"]
    (PyVal.str "3") rfl).1.1

/-- Claim C3 counterexample: order-independence fails for the program's
float arithmetic.  Under IEEE-754 binary64 addition, summing the floats
1e16, 1.0, -1e16 in that order gives 0.0 (adding 1.0 to 1e16 rounds back to
1e16), while the permutation 1e16, -1e16, 1.0 gives 1.0: `sum_numbers`
returns different doubles on a permutation of the same numeric sequence. -/
theorem sum_numbers_perm_counterexample :
    ([F64.mk 10000000000000000 0, F64.mk 1 0,
        F64.mk (-10000000000000000) 0].Perm
      [F64.mk 10000000000000000 0, F64.mk (-10000000000000000) 0,
        F64.mk 1 0]) ∧
    (sum_numbers_f64
        [F64.mk 10000000000000000 0, F64.mk 1 0,
          F64.mk (-10000000000000000) 0]).sameValue
      (sum_numbers_f64
        [F64.mk 10000000000000000 0, F64.mk (-10000000000000000) 0,
          F64.mk 1 0]) = false ∧
    (sum_numbers_f64
        [F64.mk 10000000000000000 0, F64.mk 1 0,
          F64.mk (-10000000000000000) 0]).sameValue ⟨0, 0⟩ = true ∧
    (sum_numbers_f64
        [F64.mk 10000000000000000 0, F64.mk (-10000000000000000) 0,
          F64.mk 1 0]).sameValue ⟨1, 0⟩ = true :=
  ⟨List.Perm.cons _ (List.Perm.swap _ _ _), by decide, by decide, by decide⟩

/-- Claim C3 (amended): for every sequence of integer and boolean values —
the numeric values whose Python arithmetic is exact — and every permutation
of it, `sum_numbers` returns the same result on the permuted sequence as on
the original sequence; for floating-point elements the result can depend on
the order, since binary64 addition rounds. -/
theorem sum_numbers_perm_invariant_exact (l l2 : List PyVal) (hp : l.Perm l2)
    (h : l.all isExactNum = true) :
    sum_numbers l2 = sum_numbers l := by
  have hn : ∀ v : PyVal, isExactNum v = true → isNumeric v = true := by
    intro v hv
    cases v <;> simp [isExactNum, isNumeric] at hv ⊢
  have h1 : l.all isNumeric = true := by
    rw [List.all_eq_true] at h ⊢
    exact fun x hx => hn x (h x hx)
  have h2 : l2.all isNumeric = true := by
    rw [List.all_eq_true] at h1 ⊢
    exact fun x hx => h1 x (hp.mem_iff.mpr hx)
  rw [sum_numbers, sum_numbers, sumLoop_ok _ _ h1, sumLoop_ok _ _ h2,
    (hp.map toNum).sum_eq]

/-- Witness for amended C3 at a concrete permutation of an integer
sequence. -/
theorem sum_numbers_perm_invariant_exact_witness :
    sum_numbers [PyVal.int 2, PyVal.int 1] = sum_numbers [PyVal.int 1, PyVal.int 2] :=
  sum_numbers_perm_invariant_exact [PyVal.int 1, PyVal.int 2] [PyVal.int 2, PyVal.int 1]
    (List.Perm.swap (PyVal.int 2) (PyVal.int 1) []) rfl

/-- Claim C4: for every list of values, numeric or not, `sum_from_list` yields
exactly the same outcome as variadic `sum_numbers` on the same values in the
same order: the same sum on success and the same error on failure. -/
theorem sum_from_list_eq_sum_numbers (numbers : List PyVal) :
    sum_from_list numbers = sum_numbers numbers := rfl

/-- Claim C5: in the interactive loop, from every state of the collected set,
a non-blank entry that is not parseable as a float prints the invalid-number
message and continues the loop with the collected set unchanged.  The entry
is restricted to ASCII strings outside the special-value literals: on those
the model's parse failure coincides with a `ValueError` from the program's
`float()` (non-ASCII digits and inf/nan literals parse in Python, so they
fall outside the claim's unparseable premise anyway). -/
theorem calcLoop_invalid_entry (numbers : List ℚ) (rest : List InEvent) (s : String)
    (_ha : allAscii s = true) (hne : pyStrip s ≠ "")
    (hp : pyFloat (pyStrip s) = Option.none)
    (_hi : isInfNan (pyStrip s) = false) :
    calcLoop (InEvent.line s :: rest) numbers =
      OutMsg.prompt (numbers.length + 1) :: OutMsg.invalidNumber ::
        calcLoop rest numbers := by
  rw [calcLoop_cons_line, if_neg hne, hp]

/-- Witness for C5 at a concrete non-parseable entry. -/
theorem calcLoop_invalid_entry_witness :
    calcLoop [InEvent.line "abc"] [] =
      [OutMsg.prompt 1, OutMsg.invalidNumber] := by
  have h := calcLoop_invalid_entry [] [] "abc" (by decide) (by decide) rfl rfl
  simpa [calcLoop] using h

/-- Claim C6: blank input with an empty collected set prints the no-numbers
message and terminates without printing a sum; blank input with a non-empty
collected set terminates entry and prints the sum of everything collected. -/
theorem calcLoop_blank_input (numbers : List ℚ) (rest : List InEvent) (s : String)
    (hb : pyStrip s = "") :
    calcLoop (InEvent.line s :: rest) numbers =
      OutMsg.prompt (numbers.length + 1) ::
        (if numbers = [] then [OutMsg.noNumbers]
         else [OutMsg.sumResult numbers numbers.sum]) := by
  rw [calcLoop_cons_line, if_pos hb]
  by_cases h : numbers = [] <;>
    simp [afterLoop, h, sum_from_list_floats]

/-- Witness for C6 at immediate blank input and at blank input after a
collected number. -/
theorem calcLoop_blank_input_witness :
    calcLoop [InEvent.line ""] [] = [OutMsg.prompt 1, OutMsg.noNumbers] ∧
    calcLoop [InEvent.line ""] [2] =
      [OutMsg.prompt 2, OutMsg.sumResult [2] 2] := by
  refine ⟨by simpa using calcLoop_blank_input [] [] "" rfl, ?_⟩
  have h := calcLoop_blank_input [2] [] "" rfl
  simpa using h

/-- Claim C7: an interrupt arriving at the prompt, from every state of the
collected set, ends the session immediately with only the cancellation
message: the loop returns and no sum result is ever output afterwards. -/
theorem calcLoop_interrupt_aborts (numbers : List ℚ) (rest : List InEvent) :
    calcLoop (InEvent.interrupt :: rest) numbers =
      [OutMsg.prompt (numbers.length + 1), OutMsg.cancelled] ∧
    ((calcLoop (InEvent.interrupt :: rest) numbers).all
        fun m => !isSumResult m) = true := by
  refine ⟨calcLoop_cons_interrupt rest numbers, ?_⟩
  rw [calcLoop_cons_interrupt]
  rfl

/-- Claim C8: the four example computations of the spec. -/
theorem sum_numbers_examples :
    sum_numbers [PyVal.int 1, PyVal.int 2, PyVal.int 3, PyVal.int 4, PyVal.int 5] =
      Except.ok 15 ∧
    sum_numbers [PyVal.int (-1), PyVal.int (-2), PyVal.int (-3)] = Except.ok (-6) ∧
    sum_numbers [PyVal.int 10, PyVal.int (-5), PyVal.int 3, PyVal.int (-2)] =
      Except.ok 6 ∧
    sum_numbers [PyVal.int 0, PyVal.int 0, PyVal.int 0] = Except.ok 0 := by
  refine ⟨?_, ?_, ?_, ?_⟩ <;>
    norm_num [sum_numbers, sumLoop, isNumeric, toNum]

/-- Claim C9: booleans pass the numeric check because Python `bool` is a subclass
of `int`; `True` counts as 1 and `False` as 0 in the total, so a sequence of
booleans sums without a type error, e.g. `sum_numbers(True, False, True)`
returns 2. -/
theorem sum_numbers_booleans (bs : List Bool) :
    (∀ b : Bool, isNumeric (PyVal.bool b) = true) ∧
    toNum (PyVal.bool true) = 1 ∧
    toNum (PyVal.bool false) = 0 ∧
    sum_numbers (bs.map PyVal.bool) =
      Except.ok ((bs.map fun b => if b then (1 : ℚ) else 0).sum) ∧
    sum_numbers [PyVal.bool true, PyVal.bool false, PyVal.bool true] =
      Except.ok 2 := by
  refine ⟨fun b => rfl, rfl, rfl, ?_, ?_⟩
  · have hall : (bs.map PyVal.bool).all isNumeric = true := by
      rw [List.all_eq_true]
      intro x hx
      obtain ⟨b, _, rfl⟩ := List.mem_map.mp hx
      rfl
    have h := sumLoop_ok (bs.map PyVal.bool) 0 hall
    rw [sum_numbers, h, zero_add, List.map_map]
    rfl
  · norm_num [sum_numbers, sumLoop, isNumeric, toNum]

/-- Claim C10: every value the interactive loop collects is a parsed float, so the
summation after entry ends never raises and the error-printing branch is
unreachable: summing any list of floats succeeds, and no interactive trace
contains the error message. -/
theorem interactive_no_sum_error (l : List ℚ) (events : List InEvent) :
    sum_from_list (l.map PyVal.float) = Except.ok l.sum ∧
    ((interactive_calculator events).all fun m => !isSumError m) = true := by
  refine ⟨sum_from_list_floats l, ?_⟩
  rw [interactive_calculator]
  simp only [List.all_cons, Bool.and_eq_true, List.all_eq_true]
  exact ⟨rfl, rfl, fun m hm => by rw [calcLoop_no_sumError events [] m hm]; rfl⟩
